import Mathlib

/-! Shallow embedding of the quietpleasure/postgres connection-pool construction
layer: the functional-option pipeline, the default resolution performed by New,
the connection descriptor it builds, the overlay of pool-tuning fields onto the
structured configuration, and the post-connect hook. External collaborators
(the pgxpool descriptor parser and constructor) are kept abstract as an
environment record; the Go standard library IP parser is modelled executably,
following the algorithm of net.ParseIP (netip.ParseAddr). -/

deriving instance DecidableEq for Except

namespace Postgres

/-- Model of Go time.Duration: a signed 64-bit count of nanoseconds. The code
performs no arithmetic on durations, only comparisons and assignments, so a
plain Int is an exact model on the int64 range. -/
abbrev Duration := Int

/-- Model of net.IP: the list of address bytes (4 for an IPv4 literal, 16 for
an IPv6 literal). Go represents a parsed IPv4 address as a 16-byte
v4-mapped slice; the 4-byte view used here is an equivalent representation of
the same address and is only ever compared for equality or formatted back to
the dotted-quad text. -/
abbrev IP := List Nat

/-- Numeric value of a list of decimal digit characters. -/
def digitsToNat (l : List Char) : Nat :=
  l.foldl (fun a c => a * 10 + (c.toNat - 48)) 0

/-- Split a character list on a separator character, keeping empty pieces,
mirroring how the Go IPv4 parser delimits fields at every dot. -/
def splitOnChar (c : Char) : List Char → List (List Char)
  | [] => [[]]
  | x :: xs =>
    let r := splitOnChar c xs
    if x = c then [] :: r
    else
      match r with
      | [] => [[x]]
      | h :: t => (x :: h) :: t

/-- One dotted-quad field as accepted by the Go parser (netip parseIPv4):
nonempty, decimal digits only, no leading zero, value at most 255. The Go
parser checks the value bound progressively while reading digits; since the
accumulated value only grows, accepting exactly when the final value is at
most 255 yields the same set of accepted fields. -/
def validV4Field (l : List Char) : Bool :=
  !l.isEmpty && l.all Char.isDigit &&
  (l.length = 1 || l.head? ≠ some '0') &&
  digitsToNat l ≤ 255

/-- Go parseIPv4: exactly four dot-separated valid fields. -/
def parseIPv4chars (s : List Char) : Option IP :=
  let parts := splitOnChar '.' s
  if parts.length = 4 && parts.all validV4Field then
    some (parts.map digitsToNat)
  else none

/-- Value of a hexadecimal digit character, if it is one. -/
def hexVal (c : Char) : Option Nat :=
  if c.isDigit then some (c.toNat - 48)
  else if 'a' ≤ c && c ≤ 'f' then some (c.toNat - 87)
  else if 'A' ≤ c && c ≤ 'F' then some (c.toNat - 55)
  else none

/-- Numeric value of a list of hexadecimal digit characters. -/
def hexDigitsToNat (l : List Char) : Nat :=
  l.foldl (fun a c => a * 16 + ((hexVal c).getD 0)) 0

/-- Insert the zero bytes an ellipsis stands for and apply the final length
checks of the Go IPv6 parser: a short address needs an ellipsis, a full
16-byte address must not have one. -/
def finishV6 (bytes : List Nat) (ell : Option Nat) : Option IP :=
  if bytes.length < 16 then
    match ell with
    | none => none
    | some e => some (bytes.take e ++ List.replicate (16 - bytes.length) 0 ++ bytes.drop e)
  else
    match ell with
    | some _ => none
    | none => some bytes

/-- Main loop of the Go IPv6 parser (netip parseIPv6), transcribed over a
character list. Each iteration reads one hex field; a dot after the field
switches to an embedded IPv4 suffix; a double colon records the ellipsis
position. The fuel bounds the iteration count, which Go bounds by the 16-byte
output; ten is more than the at most eight possible groups. -/
def parseIPv6Loop : Nat → List Char → List Nat → Option Nat → Option (List Nat × Option Nat)
  | 0, s, bytes, ell => if s.isEmpty then some (bytes, ell) else none
  | fuel + 1, s, bytes, ell =>
    if 16 ≤ bytes.length then
      if s.isEmpty then some (bytes, ell) else none
    else
      let p := s.span (fun c => (hexVal c).isSome)
      if p.1.isEmpty then none
      else if p.2.head? = some '.' then
        if ell = none && bytes.length ≠ 12 then none
        else if 16 < bytes.length + 4 then none
        else
          match parseIPv4chars s with
          | none => none
          | some v4 => some (bytes ++ v4, ell)
      else
        let v := hexDigitsToNat p.1
        if 65535 < v then none
        else
          let bytes := bytes ++ [v / 256, v % 256]
          match p.2 with
          | [] => some (bytes, ell)
          | ':' :: [] => none
          | ':' :: ':' :: s2 =>
            if ell.isSome then none
            else if s2.isEmpty then some (bytes, some bytes.length)
            else parseIPv6Loop fuel s2 bytes (some bytes.length)
          | ':' :: s2 => parseIPv6Loop fuel s2 bytes ell
          | _ => none

/-- Go parseIPv6: an optional leading double colon, then the field loop, then
the ellipsis expansion and length checks. -/
def parseIPv6chars (s : List Char) : Option IP :=
  match s with
  | ':' :: ':' :: rest =>
    if rest.isEmpty then some (List.replicate 16 0)
    else
      match parseIPv6Loop 10 rest [] (some 0) with
      | none => none
      | some (bytes, ell) => finishV6 bytes ell
  | _ =>
    match parseIPv6Loop 10 s [] none with
    | none => none
    | some (bytes, ell) => finishV6 bytes ell

/-- Dispatch of Go net.ParseIP: the first dot or colon in the text selects the
IPv4 or IPv6 branch; text with neither is not an IP literal. -/
def ipScan : List Char → Option Char
  | [] => none
  | c :: rest => if c = '.' || c = ':' then some c else ipScan rest

/-- Model of net.ParseIP as invoked by net.IP UnmarshalText on nonempty text:
none when the text is not a valid IP address literal. -/
def ipParse (s : String) : Option IP :=
  match ipScan s.data with
  | some '.' => parseIPv4chars s.data
  | some ':' => parseIPv6chars s.data
  | _ => none

/-- Textual form of a parsed address as Go net.IP String renders it for the
dotted-quad addresses this layer builds descriptors from. The canonical
RFC 5952 compression Go applies to 16-byte addresses is not modelled; the
specified behaviours only ever format the IPv4 default host or another
IPv4 literal. -/
def ipToString (ip : IP) : String :=
  String.intercalate "." (ip.map (fun b => toString b))

/-- Package-level constant postgres. -/
def postgres : String := "postgres"

/-- Package-level constant default_port. -/
def default_port : Int := 5432

/-- Package-level constant default_host. -/
def default_host : String := "127.0.0.1"

/-- Package-level constant default_user. -/
def default_user : String := "postgres"

/-- Package-level constant default_database. -/
def default_database : String := "postgres"

/-- Package-level constant disable_ssl_mode. -/
def disable_ssl_mode : String := "disable"

/-- Abstract handle standing for a non-nil zap.Logger supplied by the caller. -/
structure ZapLogger where
  id : Nat
deriving DecidableEq

/-- Abstract handle standing for a non-nil zerolog.Logger supplied by the caller. -/
structure ZeroLogger where
  id : Nat
deriving DecidableEq

/-- Abstract handle standing for a non-nil logrus.FieldLogger supplied by the caller. -/
structure LogrusLogger where
  id : Nat
deriving DecidableEq

/-- The adapter wrapping one of the three supported logging back ends into the
tracelog.Logger interface (pgx-zap, pgx-zerolog, pgx-logrus NewLogger). -/
inductive AdapterLogger where
  | zap (l : ZapLogger)
  | zero (l : ZeroLogger)
  | logrus (l : LogrusLogger)
deriving DecidableEq

/-- Model of a tracelog.TraceLog value: the adapted logger plus the minimum
severity level it logs at. -/
structure TraceLog where
  logger : AdapterLogger
  logLevel : Nat
deriving DecidableEq

/-- Model of tracelog.LogLevelFromString with the tracelog level constants
(trace 6, debug 5, info 4, warn 3, error 2, none 1); any other name is an
invalid-log-level error. -/
def LogLevelFromString (s : String) : Except String Nat :=
  if s = "trace" then .ok 6
  else if s = "debug" then .ok 5
  else if s = "info" then .ok 4
  else if s = "warn" then .ok 3
  else if s = "error" then .ok 2
  else if s = "none" then .ok 1
  else .error "invalid log level"

/-- The options accumulator record. Every field is unset (none) until an
option writes it. The tracelogger field is referenced by the with-logger
options in the source but its declaration in the options struct is not among
the provided files; it is modelled from the spec: the Options Record carries a
logger binding (adapter plus minimum level). -/
structure options where
  host : Option IP := none
  port : Option Int := none
  database : Option String := none
  user : Option String := none
  pass : Option String := none
  sslmode : Option String := none
  maxconns : Option Int := none
  minconns : Option Int := none
  maxconnlifetime : Option Duration := none
  maxconnidletime : Option Duration := none
  healthcheckperiod : Option Duration := none
  maxconnlifetimejitter : Option Duration := none
  tracelogger : Option TraceLog := none
deriving DecidableEq

/-- The fresh Options Record New starts from (var opt options). -/
def initOptions : options := {}

/-- Model of the Option function type. Go mutates the record through a pointer
and returns an error; here the option returns the new record together with an
optional error message, and the record is returned unchanged on the error
path, exactly as the Go setters leave it untouched when validation fails. -/
abbrev PGOption := options → options × Option String

/-- WithHost: empty input falls back to the default host, then the text must
parse as an IP literal; the parse failure message models the net.ParseError
text for the attempted input. -/
def WithHost (host : String) : PGOption := fun o =>
  let h := if host = "" then default_host else host
  match ipParse h with
  | none => (o, some ("invalid IP address: " ++ h))
  | some ip => ({ o with host := some ip }, none)

/-- WithPort: zero falls back to the default port, a negative port is a
validation error, anything else is stored as given. -/
def WithPort (port : Int) : PGOption := fun o =>
  if port = 0 then ({ o with port := some default_port }, none)
  else if port < 0 then (o, some "port cannot be less than zero")
  else ({ o with port := some port }, none)

/-- WithDatabase: empty input falls back to the default database name. -/
def WithDatabase (database : String) : PGOption := fun o =>
  let d := if database = "" then default_database else database
  ({ o with database := some d }, none)

/-- WithUser: empty input falls back to the default user. -/
def WithUser (user : String) : PGOption := fun o =>
  let u := if user = "" then default_user else user
  ({ o with user := some u }, none)

/-- WithPass: stored as given, empty string included. -/
def WithPass (pass : String) : PGOption := fun o =>
  ({ o with pass := some pass }, none)

/-- WithSSLMode: empty input falls back to the disabled mode. -/
def WithSSLMode (mode : String) : PGOption := fun o =>
  let m := if mode = "" then disable_ssl_mode else mode
  ({ o with sslmode := some m }, none)

/-- WithMaxConns: negative is a validation error, otherwise stored as given. -/
def WithMaxConns (conns : Int) : PGOption := fun o =>
  if conns < 0 then (o, some "max connections cannot be less than zero")
  else ({ o with maxconns := some conns }, none)

/-- WithMinConns: negative is a validation error, otherwise stored as given. -/
def WithMinConns (conns : Int) : PGOption := fun o =>
  if conns < 0 then (o, some "min connections cannot be less than zero")
  else ({ o with minconns := some conns }, none)

/-- WithMaxConnLifeTime: negative is a validation error, otherwise stored. -/
def WithMaxConnLifeTime (lifetime : Duration) : PGOption := fun o =>
  if lifetime < 0 then (o, some "max connection life time cannot be less than zero")
  else ({ o with maxconnlifetime := some lifetime }, none)

/-- WithMaxConnIdleTime: negative is a validation error, otherwise stored,
zero included. -/
def WithMaxConnIdleTime (idletime : Duration) : PGOption := fun o =>
  if idletime < 0 then (o, some "max connection idle time cannot be less than zero")
  else ({ o with maxconnidletime := some idletime }, none)

/-- WithHealthCheckPeriod: must be strictly positive, zero or negative is a
validation error. -/
def WithHealthCheckPeriod (period : Duration) : PGOption := fun o =>
  if period ≤ 0 then (o, some "health check period cannot be less than or equal to zero")
  else ({ o with healthcheckperiod := some period }, none)

/-- WithMaxConnLifeTimeJitter: negative is a validation error, otherwise
stored, zero included. -/
def WithMaxConnLifeTimeJitter (jitter : Duration) : PGOption := fun o =>
  if jitter < 0 then (o, some "max connection life time jitter cannot be less than zero")
  else ({ o with maxconnlifetimejitter := some jitter }, none)

/-- WithZapLogger: a nil logger handle is a no-op; otherwise the level name is
parsed and the tracelog binding with the zap adapter is stored. -/
def WithZapLogger (log : Option ZapLogger) (level : String) : PGOption := fun o =>
  match log with
  | none => (o, none)
  | some l =>
    match LogLevelFromString level with
    | .error e => (o, some e)
    | .ok lvl => ({ o with tracelogger := some { logger := .zap l, logLevel := lvl } }, none)

/-- WithZeroLogger: a nil logger handle is a no-op; otherwise the level name
is parsed and the tracelog binding with the zerolog adapter is stored. -/
def WithZeroLogger (log : Option ZeroLogger) (level : String) : PGOption := fun o =>
  match log with
  | none => (o, none)
  | some l =>
    match LogLevelFromString level with
    | .error e => (o, some e)
    | .ok lvl => ({ o with tracelogger := some { logger := .zero l, logLevel := lvl } }, none)

/-- WithLogrusLogger: a nil logger handle is a no-op; otherwise the level name
is parsed and the tracelog binding with the logrus adapter is stored. -/
def WithLogrusLogger (log : Option LogrusLogger) (level : String) : PGOption := fun o =>
  match log with
  | none => (o, none)
  | some l =>
    match LogLevelFromString level with
    | .error e => (o, some e)
    | .ok lvl => ({ o with tracelogger := some { logger := .logrus l, logLevel := lvl } }, none)

/-- The option-application loop of New: options run in order on the shared
record, stopping at the first validation failure, whose error is returned. -/
def applyAll : List PGOption → options → options × Option String
  | [], o => (o, none)
  | f :: fs, o =>
    match f o with
    | (o2, none) => applyAll fs o2
    | (o2, some e) => (o2, some e)

/-- Character set Go url.QueryEscape leaves unescaped: letters, digits and the
four unreserved marks. -/
def queryUnescaped (c : Char) : Bool :=
  c.isAlphanum || c = '-' || c = '_' || c = '.' || c = '~'

/-- Hexadecimal digit characters used by percent escapes. -/
def hexDigitChar (n : Nat) : Char :=
  if n < 10 then Char.ofNat (48 + n) else Char.ofNat (55 + n)

/-- Model of Go url.QueryEscape: space becomes a plus sign, unreserved
characters pass through, everything else is percent-encoded. Go escapes each
UTF-8 byte; the model escapes the code point, which agrees with Go on the
ASCII mode names this layer handles. -/
def queryEscape (s : String) : String :=
  String.mk (s.data.foldr (fun c acc =>
    if c = ' ' then '+' :: acc
    else if queryUnescaped c then c :: acc
    else '%' :: hexDigitChar (c.toNat / 16) :: hexDigitChar (c.toNat % 16) :: acc) [])

/-- Model of the url.URL value New fills in: scheme, formatted host with port,
path holding the database name, user credentials and the encoded query. The
String rendering handed to the external parser is not re-modelled; the
structured record is what the abstract parser consumes. -/
structure URL where
  scheme : String
  host : String
  path : String
  username : String
  password : String
  rawQuery : String
deriving DecidableEq

/-- Default resolution of the host (New lines 57 to 63): when unset, the
default host literal is parsed, with its error propagated as the Go code
does even though that parse cannot fail. -/
def resolveHost (o : options) : Except String options :=
  match o.host with
  | some _ => .ok o
  | none =>
    match ipParse default_host with
    | none => .error ("invalid IP address: " ++ default_host)
    | some ip => .ok { o with host := some ip }

/-- Default resolution of the port (New lines 65 to 70). -/
def resolvePort (o : options) : Int :=
  match o.port with
  | none => default_port
  | some p => p

/-- Default resolution of the database name (New lines 71 to 76). -/
def resolveDatabase (o : options) : String :=
  match o.database with
  | none => default_database
  | some d => d

/-- Default resolution of the user (New lines 77 to 82). -/
def resolveUser (o : options) : String :=
  match o.user with
  | none => default_user
  | some u => u

/-- Default resolution of the password (New lines 83 to 88). -/
def resolvePass (o : options) : String :=
  match o.pass with
  | none => ""
  | some p => p

/-- The encoded query New builds: the sslmode parameter is added only when the
option record carries one (New lines 90 to 93). -/
def resolveRawQuery (o : options) : String :=
  match o.sslmode with
  | none => ""
  | some m => "sslmode=" ++ queryEscape m

/-- The connection descriptor New constructs (New lines 95 to 101); the host
field is the Sprintf of the resolved IP and port. -/
def buildURL (o : options) : URL :=
  { scheme := postgres
    host := ipToString (o.host.getD []) ++ ":" ++ toString (resolvePort o)
    path := resolveDatabase o
    username := resolveUser o
    password := resolvePass o
    rawQuery := resolveRawQuery o }

/-- Model of the structured pool configuration (pgxpool.Config) as far as this
layer touches it: the pool-tuning numerics, the logger binding, and whether
the post-connect hook has been installed. The values the external parser puts
in these fields (its own defaults) stay abstract: theorems quantify over the
incoming configuration. The hook itself is the pure function afterConnect
below; the configuration records only that it was set. -/
structure Config where
  maxConns : Int
  minConns : Int
  maxConnLifetime : Duration
  maxConnIdleTime : Duration
  healthCheckPeriod : Duration
  maxConnLifetimeJitter : Duration
  tracer : Option TraceLog
  afterConnectInstalled : Bool
deriving DecidableEq

/-- Conversion to int32 applied by the Go assignments MaxConns and MinConns
(int32 of a Go int, with wraparound). -/
def toInt32 (n : Int) : Int :=
  (n + 2 ^ 31) % 2 ^ 32 - 2 ^ 31

/-- The overlay step of New (lines 107 to 124): max and min pool size and max
lifetime are written only when set and non-zero; idle time, health-check
period and lifetime jitter are written whenever set, a zero value included. -/
def overlay (o : options) (c : Config) : Config :=
  let c := match o.maxconns with
    | some n => if n ≠ 0 then { c with maxConns := toInt32 n } else c
    | none => c
  let c := match o.minconns with
    | some n => if n ≠ 0 then { c with minConns := toInt32 n } else c
    | none => c
  let c := match o.maxconnlifetime with
    | some d => if d ≠ 0 then { c with maxConnLifetime := d } else c
    | none => c
  let c := match o.maxconnidletime with
    | some d => { c with maxConnIdleTime := d }
    | none => c
  let c := match o.healthcheckperiod with
    | some d => { c with healthCheckPeriod := d }
    | none => c
  match o.maxconnlifetimejitter with
    | some d => { c with maxConnLifetimeJitter := d }
    | none => c

/-- Modelled from the spec: the step of New that attaches a configured logger
binding to the structured configuration (spec section 4.2 step 6). The
attachment statement itself is not among the provided source files; the
with-logger options in the source store the binding in the tracelogger field,
and per the spec every pooled connection then logs through it at the
configured minimum severity. -/
def attachTracer (o : options) (c : Config) : Config :=
  match o.tracelogger with
  | some t => { c with tracer := some t }
  | none => c

/-- The configuration New hands to the external pool constructor: the parsed
configuration after the overlay, the logger attachment and the installation
of the post-connect hook (line 125). -/
def buildConfig (o : options) (c : Config) : Config :=
  { attachTracer o (overlay o c) with afterConnectInstalled := true }

/-- The post-connect hook New installs: a failed ping makes the hook fail
with the ping error wrapped by the Errorf format string, a successful ping
makes it succeed. -/
def afterConnect (ping : Except String Unit) : Except String Unit :=
  match ping with
  | .error e => .error ("ping after connect: " ++ e)
  | .ok _ => .ok ()

/-- Behaviour of the external collaborators consumed by New: the
descriptor-to-configuration parser (pgxpool.ParseConfig on the rendered URL)
and the pool constructor (pgxpool.NewWithConfig). Theorems quantify over this
record, so they hold for every behaviour of the external library. -/
structure Env where
  parseConfig : URL → Except String Config
  newWithConfig : Config → Except String Nat

/-- The returned handle wrapping the externally constructed pool resource. -/
structure Pool where
  pool : Nat
deriving DecidableEq

/-- The record New has resolved when it reaches the descriptor construction:
all options applied in order, then the host default filled in. -/
def newResolved (opts : List PGOption) : Except String options :=
  match applyAll opts initOptions with
  | (_, some e) => .error e
  | (o, none) => resolveHost o

/-- Model of New: apply the options in order aborting on the first failure,
resolve defaults, build the descriptor, have the external library parse it,
overlay the tuning fields, attach the logger binding, install the hook, and
delegate to the external constructor, each error propagating as produced. -/
def New (env : Env) (opts : List PGOption) : Except String Pool :=
  match newResolved opts with
  | .error e => .error e
  | .ok o =>
    match env.parseConfig (buildURL o) with
    | .error e => .error e
    | .ok cfg =>
      match env.newWithConfig (buildConfig o cfg) with
      | .error e => .error e
      | .ok res => .ok { pool := res }

/-- Names of the fields of the Options Record. -/
inductive Field where
  | host | port | database | user | pass | sslmode
  | maxconns | minconns | maxconnlifetime | maxconnidletime
  | healthcheckperiod | maxconnlifetimejitter | tracelogger
deriving DecidableEq

/-- A value stored in a field of the Options Record. -/
inductive FVal where
  | ip (v : IP)
  | int (n : Int)
  | str (s : String)
  | dur (d : Duration)
  | tl (t : TraceLog)
deriving DecidableEq

/-- Read one field of the Options Record uniformly. -/
def getF (o : options) : Field → Option FVal
  | .host => o.host.map .ip
  | .port => o.port.map .int
  | .database => o.database.map .str
  | .user => o.user.map .str
  | .pass => o.pass.map .str
  | .sslmode => o.sslmode.map .str
  | .maxconns => o.maxconns.map .int
  | .minconns => o.minconns.map .int
  | .maxconnlifetime => o.maxconnlifetime.map .dur
  | .maxconnidletime => o.maxconnidletime.map .dur
  | .healthcheckperiod => o.healthcheckperiod.map .dur
  | .maxconnlifetimejitter => o.maxconnlifetimejitter.map .dur
  | .tracelogger => o.tracelogger.map .tl

/-- Write one field of the Options Record uniformly; a payload of the wrong
shape for the field leaves the record unchanged (such a pair never arises
from an option). -/
def setF (o : options) : Field → FVal → options
  | .host, .ip v => { o with host := some v }
  | .port, .int n => { o with port := some n }
  | .database, .str s => { o with database := some s }
  | .user, .str s => { o with user := some s }
  | .pass, .str s => { o with pass := some s }
  | .sslmode, .str s => { o with sslmode := some s }
  | .maxconns, .int n => { o with maxconns := some n }
  | .minconns, .int n => { o with minconns := some n }
  | .maxconnlifetime, .dur d => { o with maxconnlifetime := some d }
  | .maxconnidletime, .dur d => { o with maxconnidletime := some d }
  | .healthcheckperiod, .dur d => { o with healthcheckperiod := some d }
  | .maxconnlifetimejitter, .dur d => { o with maxconnlifetimejitter := some d }
  | .tracelogger, .tl t => { o with tracelogger := some t }
  | _, _ => o

/-- Field and payload shapes that belong together. -/
def validFV : Field → FVal → Bool
  | .host, .ip _ => true
  | .port, .int _ => true
  | .database, .str _ => true
  | .user, .str _ => true
  | .pass, .str _ => true
  | .sslmode, .str _ => true
  | .maxconns, .int _ => true
  | .minconns, .int _ => true
  | .maxconnlifetime, .dur _ => true
  | .maxconnidletime, .dur _ => true
  | .healthcheckperiod, .dur _ => true
  | .maxconnlifetimejitter, .dur _ => true
  | .tracelogger, .tl _ => true
  | _, _ => false

/-- The closed family of setter options the package exports, one constructor
per With function with its argument. -/
inductive OptSpec where
  | host (s : String)
  | port (n : Int)
  | database (s : String)
  | user (s : String)
  | pass (s : String)
  | sslmode (s : String)
  | maxconns (n : Int)
  | minconns (n : Int)
  | maxconnlifetime (d : Duration)
  | maxconnidletime (d : Duration)
  | healthcheckperiod (d : Duration)
  | maxconnlifetimejitter (d : Duration)
  | zaplogger (log : Option ZapLogger) (level : String)
  | zerologger (log : Option ZeroLogger) (level : String)
  | logruslogger (log : Option LogrusLogger) (level : String)

/-- The actual option function each OptSpec constructor denotes. -/
def interp : OptSpec → PGOption
  | .host s => WithHost s
  | .port n => WithPort n
  | .database s => WithDatabase s
  | .user s => WithUser s
  | .pass s => WithPass s
  | .sslmode s => WithSSLMode s
  | .maxconns n => WithMaxConns n
  | .minconns n => WithMinConns n
  | .maxconnlifetime d => WithMaxConnLifeTime d
  | .maxconnidletime d => WithMaxConnIdleTime d
  | .healthcheckperiod d => WithHealthCheckPeriod d
  | .maxconnlifetimejitter d => WithMaxConnLifeTimeJitter d
  | .zaplogger l lvl => WithZapLogger l lvl
  | .zerologger l lvl => WithZeroLogger l lvl
  | .logruslogger l lvl => WithLogrusLogger l lvl

/-- The field a setter option owns, the only one it may ever write. -/
def ownField : OptSpec → Field
  | .host _ => .host
  | .port _ => .port
  | .database _ => .database
  | .user _ => .user
  | .pass _ => .pass
  | .sslmode _ => .sslmode
  | .maxconns _ => .maxconns
  | .minconns _ => .minconns
  | .maxconnlifetime _ => .maxconnlifetime
  | .maxconnidletime _ => .maxconnidletime
  | .healthcheckperiod _ => .healthcheckperiod
  | .maxconnlifetimejitter _ => .maxconnlifetimejitter
  | .zaplogger _ _ => .tracelogger
  | .zerologger _ _ => .tracelogger
  | .logruslogger _ _ => .tracelogger

/-- Outcome of a setter option, computed from its argument alone: either its
validation error, or a success writing nothing, or a success writing one
field with one value. That the outcome never depends on the record it is
applied to is the content of the lemma interp_eq below. -/
def specResult : OptSpec → Except String (Option (Field × FVal))
  | .host s =>
    let h := if s = "" then default_host else s
    match ipParse h with
    | none => .error ("invalid IP address: " ++ h)
    | some ip => .ok (some (.host, .ip ip))
  | .port n =>
    if n = 0 then .ok (some (.port, .int default_port))
    else if n < 0 then .error "port cannot be less than zero"
    else .ok (some (.port, .int n))
  | .database s =>
    .ok (some (.database, .str (if s = "" then default_database else s)))
  | .user s =>
    .ok (some (.user, .str (if s = "" then default_user else s)))
  | .pass s => .ok (some (.pass, .str s))
  | .sslmode s =>
    .ok (some (.sslmode, .str (if s = "" then disable_ssl_mode else s)))
  | .maxconns n =>
    if n < 0 then .error "max connections cannot be less than zero"
    else .ok (some (.maxconns, .int n))
  | .minconns n =>
    if n < 0 then .error "min connections cannot be less than zero"
    else .ok (some (.minconns, .int n))
  | .maxconnlifetime d =>
    if d < 0 then .error "max connection life time cannot be less than zero"
    else .ok (some (.maxconnlifetime, .dur d))
  | .maxconnidletime d =>
    if d < 0 then .error "max connection idle time cannot be less than zero"
    else .ok (some (.maxconnidletime, .dur d))
  | .healthcheckperiod d =>
    if d ≤ 0 then .error "health check period cannot be less than or equal to zero"
    else .ok (some (.healthcheckperiod, .dur d))
  | .maxconnlifetimejitter d =>
    if d < 0 then .error "max connection life time jitter cannot be less than zero"
    else .ok (some (.maxconnlifetimejitter, .dur d))
  | .zaplogger none _ => .ok none
  | .zaplogger (some l) lvl =>
    match LogLevelFromString lvl with
    | .error e => .error e
    | .ok v => .ok (some (.tracelogger, .tl { logger := .zap l, logLevel := v }))
  | .zerologger none _ => .ok none
  | .zerologger (some l) lvl =>
    match LogLevelFromString lvl with
    | .error e => .error e
    | .ok v => .ok (some (.tracelogger, .tl { logger := .zero l, logLevel := v }))
  | .logruslogger none _ => .ok none
  | .logruslogger (some l) lvl =>
    match LogLevelFromString lvl with
    | .error e => .error e
    | .ok v => .ok (some (.tracelogger, .tl { logger := .logrus l, logLevel := v }))

/-- The effect specResult prescribes, as a function on records. -/
def applySpec (sp : OptSpec) (o : options) : options × Option String :=
  match specResult sp with
  | .error e => (o, some e)
  | .ok none => (o, none)
  | .ok (some (f, v)) => (setF o f v, none)

/-- The field and value a setter option writes when it succeeds, none when it
fails or writes nothing. -/
def writeOf (sp : OptSpec) : Option (Field × FVal) :=
  match specResult sp with
  | .ok (some p) => some p
  | _ => none

/-- The value the last option in the list writing the given field writes,
none when no option in the list writes it. -/
def lastWrite : List OptSpec → Field → Option FVal
  | [], _ => none
  | sp :: rest, f =>
    match lastWrite rest f with
    | some v => some v
    | none =>
      match writeOf sp with
      | some (g, v) => if g = f then some v else none
      | none => none

/-- A concrete structured configuration standing for what the external parser
returns before the overlay: pgxpool-like defaults (pool size four, one hour
lifetime, thirty minutes idle time, one minute health check, zero jitter). -/
def cfgEx : Config :=
  { maxConns := 4
    minConns := 0
    maxConnLifetime := 3600000000000
    maxConnIdleTime := 1800000000000
    healthCheckPeriod := 60000000000
    maxConnLifetimeJitter := 0
    tracer := none
    afterConnectInstalled := false }

/-- A concrete external environment whose parser succeeds with cfgEx and whose
pool constructor fails, used to exercise the error-propagation paths. -/
def envFail : Env :=
  { parseConfig := fun _ => .ok cfgEx
    newWithConfig := fun _ => .error "construct failed" }

lemma applyAll_nil (o : options) : applyAll [] o = (o, none) := rfl

lemma applyAll_cons (f : PGOption) (fs : List PGOption) (o : options) :
    applyAll (f :: fs) o =
      match f o with
      | (o2, none) => applyAll fs o2
      | (o2, some e) => (o2, some e) := rfl

/-- Every setter option behaves as its computed outcome prescribes: it fails
with an error determined by its argument alone leaving the record as given,
or succeeds writing at most its own field with a value determined by its
argument alone. -/
lemma interp_eq (sp : OptSpec) (o : options) : interp sp o = applySpec sp o := by
  cases sp with
  | host s =>
    simp only [interp, WithHost, applySpec, specResult]
    cases hp : ipParse (if s = "" then default_host else s) <;> simp [hp, setF]
  | port n =>
    simp only [interp, WithPort, applySpec, specResult]
    split <;> try rfl
    split <;> rfl
  | database s => rfl
  | user s => rfl
  | pass s => rfl
  | sslmode s => rfl
  | maxconns n =>
    simp only [interp, WithMaxConns, applySpec, specResult]
    split <;> rfl
  | minconns n =>
    simp only [interp, WithMinConns, applySpec, specResult]
    split <;> rfl
  | maxconnlifetime d =>
    simp only [interp, WithMaxConnLifeTime, applySpec, specResult]
    split <;> rfl
  | maxconnidletime d =>
    simp only [interp, WithMaxConnIdleTime, applySpec, specResult]
    split <;> rfl
  | healthcheckperiod d =>
    simp only [interp, WithHealthCheckPeriod, applySpec, specResult]
    split <;> rfl
  | maxconnlifetimejitter d =>
    simp only [interp, WithMaxConnLifeTimeJitter, applySpec, specResult]
    split <;> rfl
  | zaplogger log lvl =>
    cases log with
    | none => rfl
    | some l =>
      simp only [interp, WithZapLogger, applySpec, specResult]
      cases LogLevelFromString lvl <;> rfl
  | zerologger log lvl =>
    cases log with
    | none => rfl
    | some l =>
      simp only [interp, WithZeroLogger, applySpec, specResult]
      cases LogLevelFromString lvl <;> rfl
  | logruslogger log lvl =>
    cases log with
    | none => rfl
    | some l =>
      simp only [interp, WithLogrusLogger, applySpec, specResult]
      cases LogLevelFromString lvl <;> rfl

/-- A successful write computed for a setter option targets the field the
option owns and carries a payload of the right shape for it. -/
lemma specResult_shape (sp : OptSpec) (f : Field) (v : FVal)
    (h : specResult sp = .ok (some (f, v))) :
    f = ownField sp ∧ validFV f v = true := by
  cases sp with
  | host s =>
    simp only [specResult] at h
    cases hp : ipParse (if s = "" then default_host else s) <;> rw [hp] at h
    · exact absurd h (by simp)
    · obtain ⟨rfl, rfl⟩ := Prod.mk.inj (Option.some.inj (Except.ok.inj h))
      exact ⟨rfl, rfl⟩
  | port n =>
    simp only [specResult] at h
    split at h
    · obtain ⟨rfl, rfl⟩ := Prod.mk.inj (Option.some.inj (Except.ok.inj h))
      exact ⟨rfl, rfl⟩
    · split at h
      · exact absurd h (by simp)
      · obtain ⟨rfl, rfl⟩ := Prod.mk.inj (Option.some.inj (Except.ok.inj h))
        exact ⟨rfl, rfl⟩
  | database s =>
    obtain ⟨rfl, rfl⟩ := Prod.mk.inj (Option.some.inj (Except.ok.inj h))
    exact ⟨rfl, rfl⟩
  | user s =>
    obtain ⟨rfl, rfl⟩ := Prod.mk.inj (Option.some.inj (Except.ok.inj h))
    exact ⟨rfl, rfl⟩
  | pass s =>
    obtain ⟨rfl, rfl⟩ := Prod.mk.inj (Option.some.inj (Except.ok.inj h))
    exact ⟨rfl, rfl⟩
  | sslmode s =>
    obtain ⟨rfl, rfl⟩ := Prod.mk.inj (Option.some.inj (Except.ok.inj h))
    exact ⟨rfl, rfl⟩
  | maxconns n =>
    simp only [specResult] at h
    split at h
    · exact absurd h (by simp)
    · obtain ⟨rfl, rfl⟩ := Prod.mk.inj (Option.some.inj (Except.ok.inj h))
      exact ⟨rfl, rfl⟩
  | minconns n =>
    simp only [specResult] at h
    split at h
    · exact absurd h (by simp)
    · obtain ⟨rfl, rfl⟩ := Prod.mk.inj (Option.some.inj (Except.ok.inj h))
      exact ⟨rfl, rfl⟩
  | maxconnlifetime d =>
    simp only [specResult] at h
    split at h
    · exact absurd h (by simp)
    · obtain ⟨rfl, rfl⟩ := Prod.mk.inj (Option.some.inj (Except.ok.inj h))
      exact ⟨rfl, rfl⟩
  | maxconnidletime d =>
    simp only [specResult] at h
    split at h
    · exact absurd h (by simp)
    · obtain ⟨rfl, rfl⟩ := Prod.mk.inj (Option.some.inj (Except.ok.inj h))
      exact ⟨rfl, rfl⟩
  | healthcheckperiod d =>
    simp only [specResult] at h
    split at h
    · exact absurd h (by simp)
    · obtain ⟨rfl, rfl⟩ := Prod.mk.inj (Option.some.inj (Except.ok.inj h))
      exact ⟨rfl, rfl⟩
  | maxconnlifetimejitter d =>
    simp only [specResult] at h
    split at h
    · exact absurd h (by simp)
    · obtain ⟨rfl, rfl⟩ := Prod.mk.inj (Option.some.inj (Except.ok.inj h))
      exact ⟨rfl, rfl⟩
  | zaplogger log lvl =>
    cases log with
    | none => simp [specResult] at h
    | some l =>
      simp only [specResult] at h
      cases hl : LogLevelFromString lvl <;> rw [hl] at h
      · exact absurd h (by simp)
      · obtain ⟨rfl, rfl⟩ := Prod.mk.inj (Option.some.inj (Except.ok.inj h))
        exact ⟨rfl, rfl⟩
  | zerologger log lvl =>
    cases log with
    | none => simp [specResult] at h
    | some l =>
      simp only [specResult] at h
      cases hl : LogLevelFromString lvl <;> rw [hl] at h
      · exact absurd h (by simp)
      · obtain ⟨rfl, rfl⟩ := Prod.mk.inj (Option.some.inj (Except.ok.inj h))
        exact ⟨rfl, rfl⟩
  | logruslogger log lvl =>
    cases log with
    | none => simp [specResult] at h
    | some l =>
      simp only [specResult] at h
      cases hl : LogLevelFromString lvl <;> rw [hl] at h
      · exact absurd h (by simp)
      · obtain ⟨rfl, rfl⟩ := Prod.mk.inj (Option.some.inj (Except.ok.inj h))
        exact ⟨rfl, rfl⟩

/-- Writing one field leaves every other field unchanged. -/
lemma getF_setF_ne (o : options) (f : Field) (v : FVal) (g : Field) (h : g ≠ f) :
    getF (setF o f v) g = getF o g := by
  cases f <;> cases v <;> cases g <;> simp_all [getF, setF]

/-- Writing one field with a payload of the right shape makes reading that
field return the payload. -/
lemma getF_setF_same (o : options) (f : Field) (v : FVal) (h : validFV f v = true) :
    getF (setF o f v) f = some v := by
  cases f <;> cases v <;> simp_all [getF, setF, validFV]

lemma applyAll_cons_ok {f : PGOption} {o o2 : options} (fs : List PGOption)
    (hf : f o = (o2, none)) : applyAll (f :: fs) o = applyAll fs o2 := by
  simp [applyAll, hf]

lemma applyAll_cons_err {f : PGOption} {o o2 : options} {e : String} (fs : List PGOption)
    (hf : f o = (o2, some e)) : applyAll (f :: fs) o = (o2, some e) := by
  simp [applyAll, hf]

/-- C1: New applies the supplied options strictly in the order given, so on a
successful application every field of the final Options Record holds the
value written by the last option in the sequence that writes that field
(last-write-wins), and a field no option in the sequence writes keeps its
prior value, so options that set different fields do not affect each other. -/
theorem new_options_last_write_wins (specs : List OptSpec) (o0 r : options)
    (h : applyAll (specs.map interp) o0 = (r, none)) (f : Field) :
    getF r f =
      match lastWrite specs f with
      | some v => some v
      | none => getF o0 f := by
  induction specs generalizing o0 with
  | nil =>
    simp only [List.map_nil, applyAll_nil, Prod.mk.injEq] at h
    obtain ⟨rfl, -⟩ := h
    rfl
  | cons sp rest ih =>
    rw [List.map_cons] at h
    cases hs : specResult sp with
    | error e =>
      have hf : interp sp o0 = (o0, some e) := by simp [interp_eq, applySpec, hs]
      rw [applyAll_cons_err _ hf] at h
      simp at h
    | ok w =>
      cases w with
      | none =>
        have hf : interp sp o0 = (o0, none) := by simp [interp_eq, applySpec, hs]
        rw [applyAll_cons_ok _ hf] at h
        have hw : writeOf sp = none := by simp [writeOf, hs]
        rw [ih o0 h]
        cases hl : lastWrite rest f <;> simp [lastWrite, hw, hl]
      | some p =>
        obtain ⟨g, v⟩ := p
        have hf : interp sp o0 = (setF o0 g v, none) := by simp [interp_eq, applySpec, hs]
        rw [applyAll_cons_ok _ hf] at h
        have hw : writeOf sp = some (g, v) := by simp [writeOf, hs]
        rw [ih (setF o0 g v) h]
        cases hl : lastWrite rest f with
        | some w => simp [lastWrite, hl]
        | none =>
          by_cases hgf : g = f
          · subst hgf
            simp only [lastWrite, hl, hw, if_pos rfl]
            exact getF_setF_same o0 g v (specResult_shape sp g v hs).2
          · simp only [lastWrite, hl, hw, if_neg hgf]
            exact getF_setF_ne o0 g v f (fun hc => hgf hc.symm)

/-- Witness for C1: of two port options the later one wins. -/
theorem new_options_last_write_wins_witness :
    getF { initOptions with port := some 9090 } Field.port = some (FVal.int 9090) :=
  (new_options_last_write_wins [OptSpec.port 8080, OptSpec.port 9090] initOptions
    { initOptions with port := some 9090 } (by decide) Field.port).trans (by decide)

/-- C10: a setter option whose validation fails leaves the Options Record
completely unchanged, and one that succeeds modifies at most its own field,
leaving every other field of the record unchanged. -/
theorem setter_frame (sp : OptSpec) (o o2 : options) (err : Option String)
    (h : interp sp o = (o2, err)) :
    (err.isSome → o2 = o) ∧
    (err = none → ∀ f : Field, f ≠ ownField sp → getF o2 f = getF o f) := by
  rw [interp_eq] at h
  unfold applySpec at h
  cases hs : specResult sp <;> rw [hs] at h
  case error e =>
    have h2 : ((o, some e) : options × Option String) = (o2, err) := h
    obtain ⟨rfl, rfl⟩ := Prod.mk.inj h2
    exact ⟨fun _ => rfl, fun hn => absurd hn (by simp)⟩
  case ok w =>
    cases w with
    | none =>
      have h2 : ((o, none) : options × Option String) = (o2, err) := h
      obtain ⟨rfl, rfl⟩ := Prod.mk.inj h2
      exact ⟨fun hc => absurd hc (by simp), fun _ _ _ => rfl⟩
    | some p =>
      obtain ⟨g, v⟩ := p
      have h2 : ((setF o g v, none) : options × Option String) = (o2, err) := h
      obtain ⟨rfl, rfl⟩ := Prod.mk.inj h2
      refine ⟨fun hc => absurd hc (by simp), fun _ f hf => ?_⟩
      have hg := (specResult_shape sp g v hs).1
      exact getF_setF_ne o g v f (hg ▸ hf)

/-- Witness for C10: a failing max-connections option leaves a record
unchanged, and a succeeding port option leaves the user field unchanged. -/
theorem setter_frame_witness :
    ({ initOptions with user := some "u" } : options) = { initOptions with user := some "u" } ∧
    getF { initOptions with user := some "u", port := some 7 } Field.user
      = getF { initOptions with user := some "u" } Field.user := by
  constructor
  · exact (setter_frame (OptSpec.maxconns (-1)) { initOptions with user := some "u" }
      { initOptions with user := some "u" } (some "max connections cannot be less than zero")
      (by decide)).1 rfl
  · exact (setter_frame (OptSpec.port 7) { initOptions with user := some "u" }
      { initOptions with user := some "u", port := some 7 } none (by decide)).2 rfl
      Field.user (by decide)

lemma applyAll_append (xs ys : List PGOption) (o : options) :
    applyAll (xs ++ ys) o =
      match applyAll xs o with
      | (o2, none) => applyAll ys o2
      | (o2, some e) => (o2, some e) := by
  induction xs generalizing o with
  | nil => rfl
  | cons f fs ih =>
    rw [List.cons_append, applyAll_cons, applyAll_cons]
    cases hf : f o with
    | mk o2 err => cases err <;> simp [ih]

/-- Pointwise description of the overlay step, shared by the overlay theorems:
max and min pool size and max lifetime are taken from the Options Record only
when set and non-zero, idle time, health-check period and jitter whenever set,
and the remaining configuration fields are untouched. -/
lemma overlay_fields (o : options) (c : Config) :
    overlay o c =
      { maxConns :=
          match o.maxconns with
          | some n => if n ≠ 0 then toInt32 n else c.maxConns
          | none => c.maxConns
        minConns :=
          match o.minconns with
          | some n => if n ≠ 0 then toInt32 n else c.minConns
          | none => c.minConns
        maxConnLifetime :=
          match o.maxconnlifetime with
          | some d => if d ≠ 0 then d else c.maxConnLifetime
          | none => c.maxConnLifetime
        maxConnIdleTime :=
          match o.maxconnidletime with
          | some d => d
          | none => c.maxConnIdleTime
        healthCheckPeriod :=
          match o.healthcheckperiod with
          | some d => d
          | none => c.healthCheckPeriod
        maxConnLifetimeJitter :=
          match o.maxconnlifetimejitter with
          | some d => d
          | none => c.maxConnLifetimeJitter
        tracer := c.tracer
        afterConnectInstalled := c.afterConnectInstalled } := by
  unfold overlay
  cases o.maxconns <;> cases o.minconns <;> cases o.maxconnlifetime <;>
    cases o.maxconnidletime <;> cases o.healthcheckperiod <;>
    cases o.maxconnlifetimejitter <;>
    (first | rfl | (dsimp only; split_ifs <;> rfl))

/-- C2 counterexample: with zero options the record New resolves carries no
SSL mode at all, so the descriptor query is empty rather than carrying the
disable mode the claim states as the resolved SSL mode. -/
theorem new_no_options_sslmode_absent :
    newResolved [] = .ok { initOptions with host := some [127, 0, 0, 1] } ∧
    ({ initOptions with host := some [127, 0, 0, 1] } : options).sslmode = none ∧
    (buildURL { initOptions with host := some [127, 0, 0, 1] }).rawQuery = "" ∧
    ("" : String) ≠ "sslmode=" ++ queryEscape disable_ssl_mode := by
  refine ⟨by decide, rfl, by decide, by decide⟩

/-- C2 amended: with zero options New resolves the documented defaults for
host (127.0.0.1), port (5432), database (postgres), user (postgres) and
password (empty), and puts no SSL-mode parameter in the descriptor, leaving
SSL behaviour to the underlying library rather than setting disable. -/
theorem new_no_options_defaults :
    newResolved [] = .ok { initOptions with host := some [127, 0, 0, 1] } ∧
    buildURL { initOptions with host := some [127, 0, 0, 1] } =
      { scheme := "postgres"
        host := "127.0.0.1:5432"
        path := "postgres"
        username := "postgres"
        password := ""
        rawQuery := "" } := by
  refine ⟨by decide, by decide⟩

/-- C3 counterexample: an idle time explicitly set to zero is overlaid onto
the structured configuration, replacing the parser default, so it is not left
at the underlying resource default as the claim states for all six fields. -/
theorem overlay_idletime_zero_applied :
    WithMaxConnIdleTime 0 initOptions = ({ initOptions with maxconnidletime := some 0 }, none) ∧
    (overlay { initOptions with maxconnidletime := some 0 } cfgEx).maxConnIdleTime = 0 ∧
    cfgEx.maxConnIdleTime = 1800000000000 ∧ (0 : Duration) ≠ 1800000000000 := by
  refine ⟨by decide, by decide, rfl, by decide⟩

/-- C3 amended: the overlay takes max pool size, min pool size and max
lifetime from the Options Record only when set and non-zero, leaving them at
the parsed configuration default otherwise, while idle time, health-check
period and lifetime jitter are applied whenever set, a zero value included,
and the remaining configuration fields are untouched by the overlay. -/
theorem overlay_zero_rules (o : options) (c : Config) :
    overlay o c =
      { maxConns :=
          match o.maxconns with
          | some n => if n ≠ 0 then toInt32 n else c.maxConns
          | none => c.maxConns
        minConns :=
          match o.minconns with
          | some n => if n ≠ 0 then toInt32 n else c.minConns
          | none => c.minConns
        maxConnLifetime :=
          match o.maxconnlifetime with
          | some d => if d ≠ 0 then d else c.maxConnLifetime
          | none => c.maxConnLifetime
        maxConnIdleTime :=
          match o.maxconnidletime with
          | some d => d
          | none => c.maxConnIdleTime
        healthCheckPeriod :=
          match o.healthcheckperiod with
          | some d => d
          | none => c.healthCheckPeriod
        maxConnLifetimeJitter :=
          match o.maxconnlifetimejitter with
          | some d => d
          | none => c.maxConnLifetimeJitter
        tracer := c.tracer
        afterConnectInstalled := c.afterConnectInstalled } :=
  overlay_fields o c

/-- C4: a logger binding configured through a with-logger option is stored in
the Options Record with its parsed minimum severity level, and the
configuration New hands to the pool constructor carries exactly that binding.
The attachment step is modelled from the spec, its statement not being among
the provided source files. -/
theorem logger_binding_attached (l : ZapLogger) (lvlname : String) (lvl : Nat)
    (o : options) (c : Config) (h : LogLevelFromString lvlname = .ok lvl) :
    WithZapLogger (some l) lvlname o =
      ({ o with tracelogger := some { logger := .zap l, logLevel := lvl } }, none) ∧
    (buildConfig { o with tracelogger := some { logger := .zap l, logLevel := lvl } } c).tracer
      = some { logger := .zap l, logLevel := lvl } := by
  constructor
  · simp [WithZapLogger, h]
  · simp [buildConfig, attachTracer]

/-- Witness for C4 at a concrete zap handle, the warn level and cfgEx. -/
theorem logger_binding_attached_witness :
    WithZapLogger (some { id := 0 }) "warn" initOptions =
      ({ initOptions with
          tracelogger := some { logger := .zap { id := 0 }, logLevel := 3 } }, none) ∧
    (buildConfig
        { initOptions with
            tracelogger := some { logger := .zap { id := 0 }, logLevel := 3 } } cfgEx).tracer
      = some { logger := .zap { id := 0 }, logLevel := 3 } :=
  logger_binding_attached { id := 0 } "warn" 3 initOptions cfgEx (by decide)

/-- C5 counterexample: the post-connect hook does not surface the ping error
unchanged; it wraps it with the ping-after-connect prefix. -/
theorem after_connect_wraps_ping_error :
    afterConnect (.error "boom") = .error "ping after connect: boom" ∧
    ("ping after connect: boom" : String) ≠ "boom" := by
  refine ⟨rfl, by decide⟩

/-- C5 amended: a failing option validation error, a descriptor-parse error
and a constructor error are each returned by New exactly as produced, while
the post-connect hook returns the failed ping error wrapped with the
ping-after-connect prefix rather than unchanged. -/
theorem errors_propagate (env : Env) (opts : List PGOption) (o o2 : options)
    (cfg : Config) (e : String) :
    (applyAll opts initOptions = (o2, some e) → New env opts = .error e) ∧
    (newResolved opts = .ok o → env.parseConfig (buildURL o) = .error e →
      New env opts = .error e) ∧
    (newResolved opts = .ok o → env.parseConfig (buildURL o) = .ok cfg →
      env.newWithConfig (buildConfig o cfg) = .error e → New env opts = .error e) ∧
    (∀ p : String, afterConnect (.error p) = .error ("ping after connect: " ++ p)) := by
  refine ⟨?_, ?_, ?_, fun p => rfl⟩
  · intro h
    simp [New, newResolved, h]
  · intro h1 h2
    simp [New, h1, h2]
  · intro h1 h2 h3
    simp [New, h1, h2, h3]

/-- Witness for C5 amended: a failing option error and a failing constructor
error each come out of New exactly as produced. -/
theorem errors_propagate_witness :
    New envFail [WithMaxConns (-3)] = .error "max connections cannot be less than zero" ∧
    New envFail [] = .error "construct failed" := by
  constructor
  · exact (errors_propagate envFail [WithMaxConns (-3)] initOptions initOptions cfgEx
      "max connections cannot be less than zero").1 (by decide)
  · exact (errors_propagate envFail [] { initOptions with host := some [127, 0, 0, 1] }
      initOptions cfgEx "construct failed").2.2.1 (by decide) rfl rfl

/-- C6: a negative port always makes WithPort fail with the negative-value
error whatever the record holds, and a New call whose option list reaches
such an option returns that error for every behaviour of the external
collaborators, so no construction or network step is attempted. -/
theorem with_port_negative_fails (p : Int) (hp : p < 0) (o : options)
    (pre post : List PGOption) (o1 : options)
    (hpre : applyAll pre initOptions = (o1, none)) :
    WithPort p o = (o, some "port cannot be less than zero") ∧
    ∀ env : Env, New env (pre ++ WithPort p :: post) = .error "port cannot be less than zero" := by
  have hw : ∀ o2 : options, WithPort p o2 = (o2, some "port cannot be less than zero") := by
    intro o2
    unfold WithPort
    rw [if_neg (by omega : ¬ p = 0), if_pos hp]
  refine ⟨hw o, fun env => ?_⟩
  have happ : applyAll (pre ++ WithPort p :: post) initOptions
      = (o1, some "port cannot be less than zero") := by
    rw [applyAll_append, hpre]
    exact applyAll_cons_err post (hw o1)
  simp [New, newResolved, happ]

/-- Witness for C6 with port minus one and no other options. -/
theorem with_port_negative_fails_witness :
    WithPort (-1) initOptions = (initOptions, some "port cannot be less than zero") ∧
    New envFail [WithPort (-1)] = .error "port cannot be less than zero" := by
  have h := with_port_negative_fails (-1) (by decide) initOptions [] [] initOptions rfl
  exact ⟨h.1, h.2 envFail⟩

/-- C7: a zero-port option stores the default port, so the record New
resolves with WithPort zero and the record it resolves with no port option
both resolve to port 5432. -/
theorem port_zero_same_as_unset :
    applyAll [WithPort 0] initOptions = ({ initOptions with port := some 5432 }, none) ∧
    newResolved [WithPort 0]
      = .ok { initOptions with host := some [127, 0, 0, 1], port := some 5432 } ∧
    newResolved [] = .ok { initOptions with host := some [127, 0, 0, 1] } ∧
    resolvePort { initOptions with host := some [127, 0, 0, 1], port := some 5432 } = 5432 ∧
    resolvePort { initOptions with host := some [127, 0, 0, 1] } = 5432 := by
  refine ⟨by decide, by decide, by decide, rfl, rfl⟩

/-- C8: WithHost on the empty string succeeds and resolves the host to
127.0.0.1, and WithHost on any string that does not parse as an IP address
literal fails with the parse error, leaving the record unchanged so that the
build aborts with it. -/
theorem with_host_empty_and_parse_failure (s : String) (o : options)
    (hs : s ≠ "") (hp : ipParse s = none) :
    WithHost "" o = ({ o with host := some [127, 0, 0, 1] }, none) ∧
    WithHost s o = (o, some ("invalid IP address: " ++ s)) := by
  constructor
  · simp only [WithHost, eq_self_iff_true, ite_true]
    rw [show ipParse default_host = some [127, 0, 0, 1] from by decide]
  · simp only [WithHost]
    rw [if_neg hs, hp]

/-- Witness for C8 at the string not-an-ip, which has no dot and no colon and
so is rejected by the address parser. -/
theorem with_host_empty_and_parse_failure_witness :
    WithHost "" initOptions = ({ initOptions with host := some [127, 0, 0, 1] }, none) ∧
    WithHost "not-an-ip" initOptions
      = (initOptions, some ("invalid IP address: " ++ "not-an-ip")) :=
  with_host_empty_and_parse_failure "not-an-ip" initOptions (by decide) (by decide)

/-- C9: WithHealthCheckPeriod rejects every zero or negative duration with
the validation error, accepts every strictly positive duration storing it
as given, and a stored period is copied verbatim into the structured
configuration by the overlay. -/
theorem health_check_period_contract (d dneg p : Duration) (o : options) (c : Config)
    (hd : 0 < d) (hneg : dneg ≤ 0) (hp : o.healthcheckperiod = some p) :
    WithHealthCheckPeriod dneg o
      = (o, some "health check period cannot be less than or equal to zero") ∧
    WithHealthCheckPeriod d o = ({ o with healthcheckperiod := some d }, none) ∧
    (overlay o c).healthCheckPeriod = p := by
  refine ⟨?_, ?_, ?_⟩
  · unfold WithHealthCheckPeriod
    rw [if_pos hneg]
  · unfold WithHealthCheckPeriod
    rw [if_neg (not_le.mpr hd)]
  · rw [overlay_fields]
    simp [hp]

/-- Witness for C9: minus five seconds and zero both fail, one second
succeeds and is copied verbatim into the configuration. -/
theorem health_check_period_contract_witness :
    WithHealthCheckPeriod (-5000000000) { initOptions with healthcheckperiod := some 1000000000 }
      = ({ initOptions with healthcheckperiod := some 1000000000 },
          some "health check period cannot be less than or equal to zero") ∧
    WithHealthCheckPeriod 0 { initOptions with healthcheckperiod := some 1000000000 }
      = ({ initOptions with healthcheckperiod := some 1000000000 },
          some "health check period cannot be less than or equal to zero") ∧
    WithHealthCheckPeriod 1000000000 { initOptions with healthcheckperiod := some 1000000000 }
      = ({ initOptions with healthcheckperiod := some 1000000000 }, none) ∧
    (overlay { initOptions with healthcheckperiod := some 1000000000 } cfgEx).healthCheckPeriod
      = 1000000000 := by
  have h1 := health_check_period_contract 1000000000 (-5000000000) 1000000000
    { initOptions with healthcheckperiod := some 1000000000 } cfgEx
    (by decide) (by decide) rfl
  have h2 := health_check_period_contract 1000000000 0 1000000000
    { initOptions with healthcheckperiod := some 1000000000 } cfgEx
    (by decide) (by decide) rfl
  exact ⟨h1.1, h2.1, h1.2.1, h1.2.2⟩

end Postgres
